import Mathlib

/-!
Verification of the prospect-monitor backend (src/backend/server.js).

The server is a sequential HTTP orchestration layer with four operations:
a web-search adapter (`/api/web-search`), an LLM analysis adapter
(`/api/analyze-prospect`), a single-prospect monitor (`/api/monitor-prospect`)
and a batch monitor (`/api/monitor-all-prospects`).  We embed the pure
decision logic of each handler as Lean functions.  External collaborators
(the search provider, the LLM provider, and the JSON parser of the runtime)
are passed in as explicit function parameters, mirroring the fact that the
code treats them as opaque services.
-/

namespace ProspectMonitor

/-- A JSON value, as produced by the runtime JSON parser.  Numbers are
modelled as integers; no property under verification inspects fractional
values. -/
inductive Json where
  | null : Json
  | bool (b : Bool) : Json
  | num (n : Int) : Json
  | str (s : String) : Json
  | arr (elems : List Json) : Json
  | obj (fields : List (String × Json)) : Json
deriving Repr

/-- Property access `j.k` on a parsed JSON value: on an object, the value of
the first field named `k`; on anything else (or a missing key) the JS result
is `undefined`, modelled as `none`. -/
def Json.getProp (j : Json) (k : String) : Option Json :=
  match j with
  | .obj fields => fields.lookup k
  | _ => none

/-- JS truthiness of a property-access result.  `undefined`, `null`, `false`,
`0` and `""` are falsy; every other value is truthy. -/
def jsTruthy : Option Json → Bool
  | none => false
  | some .null => false
  | some (.bool b) => b
  | some (.num n) => n != 0
  | some (.str s) => s != ""
  | some (.arr _) => true
  | some (.obj _) => true

/-- `typeof v === 'boolean'` on a property-access result. -/
def isBoolType : Option Json → Bool
  | some (.bool _) => true
  | _ => false

/-- A normalized search result record, as built by `/api/web-search`:
`{title, url, description, published, favicon}`. -/
structure SearchResult where
  title : String
  url : String
  description : String
  published : String
  favicon : Option String
deriving DecidableEq, Repr

/-- Uniform envelope of a handler: `ok` is a 200 JSON body, `err` is a
non-success status with an error message (`res.status(s).json({error})`). -/
inductive ApiResult (α : Type) where
  | ok (value : α) : ApiResult α
  | err (status : Nat) (msg : String) : ApiResult α
deriving DecidableEq, Repr

/-- Whether an `ApiResult` is the success envelope. -/
def ApiResult.isOk {α : Type} : ApiResult α → Bool
  | .ok _ => true
  | .err _ _ => false

/-!
## Single-prospect monitor: query construction (`/api/monitor-prospect`)

`const searchQuery = `"${prospect}" (${keywords.slice(0, 4).join(' OR ')}) 2025`;`
-/

/-- The search query built by `/api/monitor-prospect` from the prospect name
and the keyword list (line 206 of server.js). -/
def buildSearchQuery (prospect : String) (keywords : List String) : String :=
  "\"" ++ prospect ++ "\" (" ++ String.intercalate " OR " (keywords.take 4) ++ ") 2025"

/-!
## Analysis adapter (`/api/analyze-prospect`)

The handler strips code-fence markup from the LLM response text, parses it
as JSON, validates the shape, and falls back to a canned verdict when
parsing or validation fails.
-/

/-- The seven characters of the tagged opening fence scanned for by the
first cleanup regex (backtick is written as its code point 0x60). -/
def jsonFenceChars : List Char := ['\x60', '\x60', '\x60', 'j', 's', 'o', 'n']

/-- The three characters of a bare fence scanned for by the second cleanup
regex. -/
def tickChars : List Char := ['\x60', '\x60', '\x60']

/-- Global replacement of the tagged-fence pattern (three backticks, the
word json, an optional newline) by the empty string: the JS
`responseText.replace` with that pattern and the global flag.  The scan is
left to right and resumes after each match, like the JS global replace. -/
def stripJsonFence (l : List Char) : List Char :=
  match l with
  | [] => []
  | c :: rest =>
    if (c :: rest).take 7 = jsonFenceChars then
      if (rest.drop 6).take 1 = ['\n'] then stripJsonFence (rest.drop 7)
      else stripJsonFence (rest.drop 6)
    else c :: stripJsonFence rest
termination_by l.length
decreasing_by
  all_goals simp only [List.length_drop, List.length_cons]
  all_goals omega

/-- Global replacement of the bare-fence pattern (three backticks, an
optional newline) by the empty string: the second JS `replace` call. -/
def stripBareFence (l : List Char) : List Char :=
  match l with
  | [] => []
  | c :: rest =>
    if (c :: rest).take 3 = tickChars then
      if (rest.drop 2).take 1 = ['\n'] then stripBareFence (rest.drop 3)
      else stripBareFence (rest.drop 2)
    else c :: stripBareFence rest
termination_by l.length
decreasing_by
  all_goals simp only [List.length_drop, List.length_cons]
  all_goals omega

/-- Whether a character is trimmed by the JS string trim operation. -/
def isJsSpace (c : Char) : Bool :=
  c == ' ' || c == '\t' || c == '\n' || c == '\r' || c == '\x0b' || c == '\x0c'

/-- The JS trim operation on a character list: remove trailing then leading
whitespace. -/
def trimChars (l : List Char) : List Char :=
  ((l.reverse.dropWhile isJsSpace).reverse).dropWhile isJsSpace

/-- The full response-text cleanup on line 153 of server.js: strip all
tagged fences, then all bare fences, then trim. -/
def cleanResponseText (s : String) : String :=
  String.mk (trimChars (stripBareFence (stripJsonFence s.data)))

/-- Whether the character list contains three consecutive backticks
anywhere.  Response texts without this pattern are untouched by the fence
stripping (up to trimming). -/
def containsTicks (l : List Char) : Bool :=
  match l with
  | [] => false
  | c :: rest => decide ((c :: rest).take 3 = tickChars) || containsTicks rest

/-- The structure validation applied to a parsed analysis (line 159):
`!analysis.company || typeof analysis.hasNews !== 'boolean'` throws; the
response is valid when company is truthy and hasNews is boolean-typed. -/
def validAnalysisStructure (analysis : Json) : Bool :=
  jsTruthy (analysis.getProp "company") && isBoolType (analysis.getProp "hasNews")

/-- The fallback verdict built on lines 174-183 when parsing or validation
of the LLM response fails. -/
def fallbackVerdict (prospect : String) (searchResults : List SearchResult) : Json :=
  .obj
    [ ("company", .str prospect),
      ("hasNews", .bool false),
      ("summary", .str "Unable to analyze search results properly"),
      ("newsType", .str "other"),
      ("urgency", .str "low"),
      ("slackMessage",
        .str ("ℹ️ Unable to analyze news for " ++ prospect ++ " - manual review needed")),
      ("sourceUrl",
        match searchResults.head? with
        | some r => if r.url = "" then .null else .str r.url
        | none => .null),
      ("confidence", .str "low") ]

/-- Outcome of the outbound LLM HTTP call: a success body whose first
content block carries the response text, or a non-success HTTP status. -/
inductive LlmOutcome where
  | ok (responseText : String) : LlmOutcome
  | httpError (status : Nat) (body : String) : LlmOutcome

/-- JS truthiness of an optional request-body string (`!prospect`). -/
def truthyStringField : Option String → Bool
  | none => false
  | some s => s != ""

/-- The `/api/analyze-prospect` handler.  The runtime JSON parser and the
LLM provider are opaque collaborators, passed in as `parseJson` and `llm`;
`anthropicKeyConfigured` reflects the `ANTHROPIC_API_KEY` environment
check.  Missing request fields are `none`; the keyword list is a JSON
array, so an empty list is still truthy. -/
def analyzeHandler (parseJson : String → Option Json)
    (anthropicKeyConfigured : Bool)
    (prospect : Option String) (keywords : Option (List String))
    (searchResults : Option (List SearchResult))
    (llm : LlmOutcome) : ApiResult Json :=
  match prospect, keywords, searchResults with
  | some p, some _, some rs =>
    if p = "" then .err 400 "Missing required parameters"
    else if !anthropicKeyConfigured then .err 500 "Anthropic API key not configured"
    else
      match llm with
      | .httpError status body =>
          .err 500 ("Claude API error: " ++ toString status ++ " - " ++ body)
      | .ok text =>
          match parseJson (cleanResponseText text) with
          | some analysis =>
              if validAnalysisStructure analysis then .ok analysis
              else .ok (fallbackVerdict p rs)
          | none => .ok (fallbackVerdict p rs)
  | _, _, _ => .err 400 "Missing required parameters"

/-!
## Search adapter (`/api/web-search`)
-/

/-- A raw web hit as delivered by the upstream search API: every field the
handler reads may be absent. -/
structure RawHit where
  title : Option String
  url : Option String
  description : Option String
  age : Option String
  profileImg : Option String
deriving Repr, DecidableEq

/-- JS `v || d` on an optional string field: the default replaces both a
missing field and an empty string (both falsy). -/
def jsOrDefault (v : Option String) (d : String) : String :=
  match v with
  | some s => if s = "" then d else s
  | none => d

/-- JS `v || null` on an optional string field. -/
def jsOrNull (v : Option String) : Option String :=
  match v with
  | some s => if s = "" then none else some s
  | none => none

/-- Normalization of one upstream hit (lines 60-66 of server.js). -/
def normalizeHit (hit : RawHit) : SearchResult :=
  { title := jsOrDefault hit.title "No title"
    url := jsOrDefault hit.url ""
    description := jsOrDefault hit.description "No description"
    published := jsOrDefault hit.age "Recent"
    favicon := jsOrNull hit.profileImg }

/-- The query parameters appended to the upstream search URL
(lines 35-41): the caller's query plus fixed policy constants. -/
structure SearchQueryParams where
  q : String
  count : Nat
  freshness : String
  textDecorations : Bool
  searchLang : String
  country : String
deriving Repr, DecidableEq

/-- The parameter set `/api/web-search` sends upstream for a query. -/
def braveQueryParams (query : String) : SearchQueryParams :=
  { q := query, count := 10, freshness := "pw", textDecorations := false,
    searchLang := "en", country := "US" }

/-- Outcome of the outbound search HTTP call: a non-success status (which
the handler turns into a thrown error) or a body whose `web.results` chain
may be absent. -/
inductive UpstreamSearch where
  | httpError (status : Nat) (statusText : String) : UpstreamSearch
  | ok (webResults : Option (List RawHit)) : UpstreamSearch

/-- The 200 body of `/api/web-search`: the query echoed back, the
normalized results, and their count. -/
structure SearchResponse where
  query : String
  results : List SearchResult
  total : Nat
deriving Repr, DecidableEq

/-- The `/api/web-search` handler.  The upstream provider is an opaque
collaborator keyed by the full parameter set; the second component of the
result counts outbound calls performed. -/
def searchHandler (braveKeyConfigured : Bool)
    (upstream : SearchQueryParams → UpstreamSearch)
    (query : Option String) : ApiResult SearchResponse × Nat :=
  match query with
  | none => (.err 400 "Query parameter is required", 0)
  | some q =>
    if q = "" then (.err 400 "Query parameter is required", 0)
    else if !braveKeyConfigured then (.err 500 "Brave API key not configured", 0)
    else
      match upstream (braveQueryParams q) with
      | .httpError status statusText =>
          (.err 500 ("Brave API error: " ++ toString status ++ " " ++ statusText), 1)
      | .ok webResults =>
          let results := (webResults.getD []).map normalizeHit
          (.ok { query := q, results := results, total := results.length }, 1)

/-!
## Batch monitor (`/api/monitor-all-prospects`)
-/

/-- One element of the batch `results` array: the parsed JSON body of the
per-prospect monitor call (a success envelope or an error envelope), or
the record pushed by the catch block when the call itself throws. -/
inductive BatchEntry where
  | ok (prospect : String) (searchResults : List SearchResult) (analysis : Json) : BatchEntry
  | errResp (status : Nat) (errMsg : String) : BatchEntry
  | caught (prospect : String) (errMsg : String) : BatchEntry

/-- JS truthiness of `r.success`: true only on the success envelope (the
error envelope has no success field; the caught record sets it false). -/
def BatchEntry.isSuccess : BatchEntry → Bool
  | .ok _ _ _ => true
  | .errResp _ _ => false
  | .caught _ _ => false

/-- JS truthiness of `r.success && r.analysis?.hasNews`. -/
def BatchEntry.hasNewsTruthy : BatchEntry → Bool
  | .ok _ _ analysis => jsTruthy (analysis.getProp "hasNews")
  | .errResp _ _ => false
  | .caught _ _ => false

/-- Outcome of one per-prospect monitor call as seen by the batch loop:
either the fetch resolves and its body parses (to a success or error
envelope), or the fetch or body parse throws. -/
inductive MonitorCallOutcome where
  | resolved (body : BatchEntry) : MonitorCallOutcome
  | thrown (errMsg : String) : MonitorCallOutcome

/-- Observable events of one batch run, in order: the monitor call for a
prospect, and the fixed `setTimeout` pause (in milliseconds). -/
inductive BatchEvent where
  | monitorCall (prospect : String) : BatchEvent
  | sleep (ms : Nat) : BatchEvent
deriving Repr, DecidableEq

/-- The sequential loop of `/api/monitor-all-prospects` (lines 274-296):
for each prospect invoke the monitor, push its parsed body and then pause
1000 ms; when the call throws, the catch block pushes a failure record and
the pause (which sits inside the try, after the push) is skipped.  Returns
the results array together with the event trace. -/
def monitorLoop (call : String → MonitorCallOutcome) :
    List String → List BatchEntry × List BatchEvent
  | [] => ([], [])
  | p :: rest =>
    match call p with
    | .resolved body =>
        let next := monitorLoop call rest
        (body :: next.1, .monitorCall p :: .sleep 1000 :: next.2)
    | .thrown msg =>
        let next := monitorLoop call rest
        (.caught p msg :: next.1, .monitorCall p :: next.2)

/-- The entry the loop pushes for one prospect. -/
def batchEntryOf (call : String → MonitorCallOutcome) (p : String) : BatchEntry :=
  match call p with
  | .resolved body => body
  | .thrown msg => .caught p msg

/-- The aggregate summary of a batch run (lines 301-306). -/
structure BatchSummary where
  total : Nat
  successful : Nat
  failed : Nat
  withNews : Nat
deriving Repr, DecidableEq

/-- The 200 body of `/api/monitor-all-prospects`. -/
structure BatchResponse where
  results : List BatchEntry
  summary : BatchSummary

/-- The `/api/monitor-all-prospects` handler: array validation, the
sequential loop, then the summary computed from the collected results. -/
def monitorAllHandler (call : String → MonitorCallOutcome)
    (prospects : Option (List String)) (keywords : Option (List String)) :
    ApiResult BatchResponse :=
  match prospects with
  | none => .err 400 "Prospects array is required"
  | some ps =>
    if ps.length = 0 then .err 400 "Prospects array is required"
    else
      match keywords with
      | none => .err 400 "Keywords array is required"
      | some ks =>
        if ks.length = 0 then .err 400 "Keywords array is required"
        else
          let results := (monitorLoop call ps).1
          .ok
            { results := results
              summary :=
                { total := ps.length
                  successful := (results.filter (fun r => r.isSuccess)).length
                  failed := (results.filter (fun r => !r.isSuccess)).length
                  withNews :=
                    (results.filter (fun r => r.isSuccess && r.hasNewsTruthy)).length } }

end ProspectMonitor

open ProspectMonitor

/-- C1: for every malformed LLM response text (not parseable as JSON after
fence stripping, or parsing to an object with no company field or a
non-boolean hasNews field), the analyze operation returns a success result
carrying the fallback verdict, whose confidence is "low" and whose hasNews
is false; it never returns an error envelope in this case. -/
theorem analyze_malformed_is_fallback_success
    (parseJson : String → Option Json) (p : String) (ks : List String)
    (rs : List SearchResult) (text : String)
    (hp : p ≠ "")
    (hmal : parseJson (cleanResponseText text) = none ∨
      ∃ j, parseJson (cleanResponseText text) = some j ∧
        (j.getProp "company" = none ∨ isBoolType (j.getProp "hasNews") = false)) :
    analyzeHandler parseJson true (some p) (some ks) (some rs) (.ok text)
      = .ok (fallbackVerdict p rs) ∧
    (fallbackVerdict p rs).getProp "confidence" = some (.str "low") ∧
    (fallbackVerdict p rs).getProp "hasNews" = some (.bool false) := by
  refine ⟨?_, rfl, rfl⟩
  rcases hmal with h | ⟨j, hj, hbad⟩
  · simp [analyzeHandler, hp, h]
  · have hval : validAnalysisStructure j = false := by
      rcases hbad with hc | hb
      · simp [validAnalysisStructure, hc, jsTruthy]
      · simp [validAnalysisStructure, hb]
    simp [analyzeHandler, hp, hj, hval]

/-- Witness for C1 at a concrete malformed response. -/
theorem analyze_malformed_is_fallback_success_witness :
    ("Acme Corp" : String) ≠ "" ∧
    analyzeHandler (fun _ => none) true (some "Acme Corp") (some ["funding"])
        (some []) (.ok "this is not json")
      = .ok (fallbackVerdict "Acme Corp" []) :=
  ⟨by decide,
    (analyze_malformed_is_fallback_success (fun _ => none) "Acme Corp" ["funding"]
      [] "this is not json" (by decide) (Or.inl rfl)).1⟩

/-- C9: every fallback verdict satisfies the same structure validation that
is applied to a real model response, for every prospect name accepted by
the analyze input validation (a truthy prospect field). -/
theorem fallback_verdict_validates
    (p : String) (rs : List SearchResult)
    (hp : truthyStringField (some p) = true) :
    validAnalysisStructure (fallbackVerdict p rs) = true := by
  simp only [truthyStringField] at hp
  have h1 : (fallbackVerdict p rs).getProp "company" = some (.str p) := rfl
  have h2 : (fallbackVerdict p rs).getProp "hasNews" = some (.bool false) := rfl
  simp [validAnalysisStructure, h1, h2, jsTruthy, isBoolType, hp]

/-- Witness for C9 at a concrete prospect. -/
theorem fallback_verdict_validates_witness :
    truthyStringField (some "Acme Corp") = true ∧
    validAnalysisStructure (fallbackVerdict "Acme Corp" []) = true :=
  ⟨by decide, fallback_verdict_validates "Acme Corp" [] (by decide)⟩

/-- C4 counterexample: with a non-empty search-result list whose first
record has an empty url (the very default the search normalization
substitutes), the fallback sourceUrl is null, not that url, so the claim
as stated fails at this input. -/
theorem fallback_sourceUrl_counterexample :
    (fallbackVerdict "Acme Corp"
        [(⟨"t", "", "d", "Recent", none⟩ : SearchResult)]).getProp "sourceUrl"
      ≠ some (Json.str (⟨"t", "", "d", "Recent", none⟩ : SearchResult).url) :=
  fun h =>
    Json.noConfusion
      (Option.some.inj
        (((rfl :
          (fallbackVerdict "Acme Corp"
            [(⟨"t", "", "d", "Recent", none⟩ : SearchResult)]).getProp "sourceUrl"
            = some Json.null)).symm.trans h))

/-- C4 (amended): the fallback verdict has exactly hasNews=false,
newsType="other", confidence="low", the fixed summary, the manual-review
alert string naming the prospect, and sourceUrl equal to the first search
result's url when the list is non-empty and that url is itself non-empty,
and null otherwise (empty list, or first url empty). -/
theorem fallback_verdict_fields (p : String) (rs : List SearchResult) :
    (fallbackVerdict p rs).getProp "hasNews" = some (.bool false) ∧
    (fallbackVerdict p rs).getProp "newsType" = some (.str "other") ∧
    (fallbackVerdict p rs).getProp "confidence" = some (.str "low") ∧
    (fallbackVerdict p rs).getProp "summary"
      = some (.str "Unable to analyze search results properly") ∧
    (fallbackVerdict p rs).getProp "slackMessage"
      = some (.str ("ℹ️ Unable to analyze news for " ++ p ++ " - manual review needed")) ∧
    (rs = [] → (fallbackVerdict p rs).getProp "sourceUrl" = some Json.null) ∧
    (∀ r rest, rs = r :: rest → r.url = "" →
        (fallbackVerdict p rs).getProp "sourceUrl" = some Json.null) ∧
    (∀ r rest, rs = r :: rest → r.url ≠ "" →
        (fallbackVerdict p rs).getProp "sourceUrl" = some (Json.str r.url)) := by
  refine ⟨rfl, rfl, rfl, rfl, rfl, ?_, ?_, ?_⟩
  · rintro rfl
    rfl
  · rintro r rest rfl hurl
    simp [fallbackVerdict, Json.getProp, List.lookup, hurl]
  · rintro r rest rfl hurl
    simp [fallbackVerdict, Json.getProp, List.lookup, hurl]

/-- Witness for the amended C4 at concrete inputs, exercising the
non-empty-url branch of sourceUrl. -/
theorem fallback_verdict_fields_witness :
    (fallbackVerdict "Acme Corp"
        [{ title := "t", url := "https://example.com/a", description := "d",
           published := "Recent", favicon := none }]).getProp "sourceUrl"
      = some (Json.str "https://example.com/a") :=
  (fallback_verdict_fields "Acme Corp" _).2.2.2.2.2.2.2 _ _ rfl (by decide)

/-- C6: for every empty or missing query, the search operation answers with
the 400 validation error and performs no outbound call to the upstream
search provider. -/
theorem search_empty_query_validation
    (braveKeyConfigured : Bool) (upstream : SearchQueryParams → UpstreamSearch)
    (query : Option String) (hq : query = none ∨ query = some "") :
    searchHandler braveKeyConfigured upstream query
      = (.err 400 "Query parameter is required", 0) := by
  rcases hq with h | h <;> subst h <;> simp [searchHandler]

/-- Witness for C6 at a missing query. -/
theorem search_empty_query_validation_witness :
    ((none : Option String) = none ∨ (none : Option String) = some "") ∧
    searchHandler true (fun _ => UpstreamSearch.ok none) none
      = (.err 400 "Query parameter is required", 0) :=
  ⟨Or.inl rfl,
    search_empty_query_validation true (fun _ => UpstreamSearch.ok none) none (Or.inl rfl)⟩

/-- C7: a successful search performs exactly one upstream call and returns
the normalized hits — at most the 10 requested from upstream, assuming the
provider honors the count parameter — with defaults substituted for every
missing field, the query echoed back, and total equal to the number of
returned results. -/
theorem search_success_normalized
    (upstream : SearchQueryParams → UpstreamSearch) (q : String)
    (webResults : Option (List RawHit))
    (hq : q ≠ "")
    (hup : upstream (braveQueryParams q) = .ok webResults)
    (hcount : (webResults.getD []).length ≤ (braveQueryParams q).count) :
    ∃ resp, searchHandler true upstream (some q) = (.ok resp, 1) ∧
      resp.query = q ∧
      resp.results = (webResults.getD []).map normalizeHit ∧
      resp.total = resp.results.length ∧
      resp.results.length ≤ 10 ∧
      normalizeHit ⟨none, none, none, none, none⟩
        = ⟨"No title", "", "No description", "Recent", none⟩ := by
  refine ⟨{ query := q, results := (webResults.getD []).map normalizeHit,
            total := ((webResults.getD []).map normalizeHit).length },
          ?_, rfl, rfl, rfl, ?_, rfl⟩
  · simp [searchHandler, hq, hup]
  · rw [List.length_map]
    simpa [braveQueryParams] using hcount

/-- Witness for C7 at a one-hit upstream response with every field
missing. -/
theorem search_success_normalized_witness :
    ∃ resp,
      searchHandler true
          (fun _ => UpstreamSearch.ok (some [(⟨none, none, none, none, none⟩ : RawHit)]))
          (some "acme news") = (.ok resp, 1) ∧
      resp.query = "acme news" ∧
      resp.results
        = ((some [(⟨none, none, none, none, none⟩ : RawHit)]
              : Option (List RawHit)).getD []).map normalizeHit ∧
      resp.total = resp.results.length ∧
      resp.results.length ≤ 10 ∧
      normalizeHit ⟨none, none, none, none, none⟩
        = ⟨"No title", "", "No description", "Recent", none⟩ :=
  search_success_normalized _ "acme news" _ (by decide) rfl (by decide)

/-- C3: `monitorOne` builds its query as the quoted prospect name, a
parenthesized " OR "-disjunction of exactly the first 4 keywords (all of
them when fewer), and the literal token 2025; only the first 4 keywords
ever influence the query, and the "Acme Corp" example from the spec
produces exactly the documented string. -/
theorem monitorOne_query_construction :
    (∀ (p : String) (ks : List String),
        buildSearchQuery p ks = buildSearchQuery p (ks.take 4)) ∧
    buildSearchQuery "Acme Corp" ["funding", "launch", "hiring", "partnership", "ipo"]
      = "\"Acme Corp\" (funding OR launch OR hiring OR partnership) 2025" := by
  constructor
  · intro p ks
    simp [buildSearchQuery, List.take_take]
  · rfl

/-- The results array collected by the batch loop is the per-prospect entry
of each input prospect, in input order. -/
theorem monitorLoop_results (call : String → MonitorCallOutcome) (ps : List String) :
    (monitorLoop call ps).1 = ps.map (batchEntryOf call) := by
  induction ps with
  | nil => rfl
  | cons p rest ih => cases h : call p <;> simp [monitorLoop, batchEntryOf, h, ih]

/-- A list with exactly one index satisfying a predicate has a filter of
length one. -/
theorem length_filter_eq_one_of_unique {α : Type} (q : α → Bool) :
    ∀ (l : List α) (k : Nat) (hk : k < l.length), q l[k] = true →
      (∀ (i : Nat) (hi : i < l.length), i ≠ k → q l[i] = false) →
      (l.filter q).length = 1 := by
  intro l
  induction l with
  | nil => intro k hk _ _; simp at hk
  | cons a t ih =>
    intro k hk h1 h2
    cases k with
    | zero =>
      have ha : q a = true := h1
      have ht : List.filter q t = [] := by
        rw [List.filter_eq_nil_iff]
        intro x hx
        obtain ⟨i, hi, rfl⟩ := List.mem_iff_getElem.mp hx
        have hz := h2 (i + 1) (by simpa using Nat.succ_lt_succ hi) (by omega)
        simpa using hz
      simp [List.filter_cons, ha, ht]
    | succ j =>
      have ha : q a = false := by
        have hz := h2 0 (by omega) (by omega)
        simpa using hz
      have hjk : j < t.length := by simpa using hk
      have h1' : q t[j] = true := by simpa using h1
      have h2' : ∀ (i : Nat) (hi : i < t.length), i ≠ j → q t[i] = false := by
        intro i hi hij
        have hz := h2 (i + 1) (by simpa using Nat.succ_lt_succ hi) (by omega)
        simpa using hz
      simpa [List.filter_cons, ha] using ih j hjk h1' h2'

/-- The filters of a predicate and its negation partition a list. -/
theorem length_filter_add_not {α : Type} (q : α → Bool) (l : List α) :
    (l.filter q).length + (l.filter (fun a => !q a)).length = l.length := by
  induction l with
  | nil => rfl
  | cons a t ih => cases hqa : q a <;> simp [List.filter_cons, hqa] <;> omega

/-- Filtering on a conjunction keeps no more elements than filtering on one
conjunct. -/
theorem length_filter_and_le {α : Type} (p q : α → Bool) (l : List α) :
    (l.filter (fun a => p a && q a)).length ≤ (l.filter p).length := by
  induction l with
  | nil => simp
  | cons a t ih =>
    cases hpa : p a <;> cases hqa : q a <;>
      simp [List.filter_cons, hpa, hqa] <;> omega

/-- C2: when every prospect but the one at index j succeeds and that one
fails deterministically (index j is the claim's 1-indexed position k minus
one), the batch handler still answers with the success envelope: the result
list has one entry per prospect, the only failure record sits at index j,
and the summary counts failed = 1 and successful = N - 1. -/
theorem monitorBatch_single_failure
    (call : String → MonitorCallOutcome) (prospects ks : List String) (j : Nat)
    (hks : ks ≠ []) (hj : j < prospects.length)
    (hfail : (batchEntryOf call prospects[j]).isSuccess = false)
    (hsucc : ∀ (i : Nat) (hi : i < prospects.length), i ≠ j →
        (batchEntryOf call prospects[i]).isSuccess = true) :
    ∃ resp, monitorAllHandler call (some prospects) (some ks) = .ok resp ∧
      resp.results.length = prospects.length ∧
      (∀ (hr : j < resp.results.length), (resp.results[j]).isSuccess = false) ∧
      (∀ (i : Nat) (hr : i < resp.results.length), i ≠ j →
          (resp.results[i]).isSuccess = true) ∧
      resp.summary.failed = 1 ∧
      resp.summary.successful = prospects.length - 1 := by
  have hne : ¬ (prospects.length = 0) := by omega
  have hkne : ¬ (ks.length = 0) := by
    simpa [List.length_eq_zero] using hks
  have hmap : (monitorLoop call prospects).1 = prospects.map (batchEntryOf call) :=
    monitorLoop_results call prospects
  have hlen : (prospects.map (batchEntryOf call)).length = prospects.length :=
    List.length_map prospects (batchEntryOf call)
  have hfailed :
      ((prospects.map (batchEntryOf call)).filter (fun r => !r.isSuccess)).length = 1 := by
    refine length_filter_eq_one_of_unique _ _ j (by omega) ?_ ?_
    · rw [List.getElem_map]
      simp [hfail]
    · intro i hi hij
      rw [List.getElem_map]
      simp [hsucc i (by omega) hij]
  have hpart :
      ((prospects.map (batchEntryOf call)).filter (fun r => r.isSuccess)).length
        + ((prospects.map (batchEntryOf call)).filter (fun r => !r.isSuccess)).length
        = prospects.length := by
    rw [length_filter_add_not, hlen]
  refine ⟨⟨prospects.map (batchEntryOf call), prospects.length,
           ((prospects.map (batchEntryOf call)).filter (fun r => r.isSuccess)).length,
           ((prospects.map (batchEntryOf call)).filter (fun r => !r.isSuccess)).length,
           ((prospects.map (batchEntryOf call)).filter
             (fun r => r.isSuccess && r.hasNewsTruthy)).length⟩,
         ?_, hlen, ?_, ?_, hfailed, ?_⟩
  · simp only [monitorAllHandler]
    rw [if_neg hne, if_neg hkne, hmap]
  · intro hr
    rw [List.getElem_map]
    exact hfail
  · intro i hr hij
    have hi : i < prospects.length := by
      have hr' : i < (prospects.map (batchEntryOf call)).length := hr
      omega
    rw [List.getElem_map]
    exact hsucc i hi hij
  · show ((prospects.map (batchEntryOf call)).filter (fun r => r.isSuccess)).length
      = prospects.length - 1
    omega

/-- Witness for C2: three prospects of which exactly the second fails (its
monitor call throws). -/
theorem monitorBatch_single_failure_witness :
    ∃ resp,
      monitorAllHandler
          (fun p => if p = "B" then MonitorCallOutcome.thrown "boom"
            else MonitorCallOutcome.resolved
              (BatchEntry.ok p []
                (Json.obj [("company", Json.str p), ("hasNews", Json.bool false)])))
          (some ["A", "B", "C"]) (some ["funding"]) = .ok resp ∧
      resp.summary.failed = 1 ∧ resp.summary.successful = 2 := by
  obtain ⟨resp, h1, _, _, _, h5, h6⟩ :=
    monitorBatch_single_failure
      (fun p => if p = "B" then MonitorCallOutcome.thrown "boom"
        else MonitorCallOutcome.resolved
          (BatchEntry.ok p []
            (Json.obj [("company", Json.str p), ("hasNews", Json.bool false)])))
      ["A", "B", "C"] ["funding"] 1 (by decide) (by decide) (by decide) (by decide)
  exact ⟨resp, h1, h5, by simpa using h6⟩

/-- C10: for every batch run passing validation, the summary total equals
the number of input prospects, there is exactly one result entry per
prospect, successful and failed partition the result list, and withNews
never exceeds successful. -/
theorem monitorBatch_summary_invariants
    (call : String → MonitorCallOutcome) (prospects ks : List String)
    (hps : prospects ≠ []) (hks : ks ≠ []) :
    ∃ resp, monitorAllHandler call (some prospects) (some ks) = .ok resp ∧
      resp.summary.total = prospects.length ∧
      resp.results.length = prospects.length ∧
      resp.summary.successful + resp.summary.failed = resp.results.length ∧
      resp.summary.withNews ≤ resp.summary.successful := by
  have hne : ¬ (prospects.length = 0) := by
    simpa [List.length_eq_zero] using hps
  have hkne : ¬ (ks.length = 0) := by
    simpa [List.length_eq_zero] using hks
  refine ⟨⟨(monitorLoop call prospects).1, prospects.length,
           ((monitorLoop call prospects).1.filter (fun r => r.isSuccess)).length,
           ((monitorLoop call prospects).1.filter (fun r => !r.isSuccess)).length,
           ((monitorLoop call prospects).1.filter
             (fun r => r.isSuccess && r.hasNewsTruthy)).length⟩,
         ?_, rfl, ?_, ?_, ?_⟩
  · simp only [monitorAllHandler]
    rw [if_neg hne, if_neg hkne]
  · rw [monitorLoop_results]
    exact List.length_map prospects (batchEntryOf call)
  · exact length_filter_add_not (fun r => r.isSuccess) (monitorLoop call prospects).1
  · exact length_filter_and_le (fun r => r.isSuccess) (fun r => r.hasNewsTruthy)
      (monitorLoop call prospects).1

/-- Witness for C10: a single-prospect batch whose monitor call throws. -/
theorem monitorBatch_summary_invariants_witness :
    ∃ resp,
      monitorAllHandler (fun _ => MonitorCallOutcome.thrown "network error")
          (some ["Acme Corp"]) (some ["funding"]) = .ok resp ∧
      resp.summary.total = 1 ∧
      resp.results.length = 1 ∧
      resp.summary.successful + resp.summary.failed = resp.results.length ∧
      resp.summary.withNews ≤ resp.summary.successful := by
  obtain ⟨resp, h1, h2, h3, h4, h5⟩ :=
    monitorBatch_summary_invariants (fun _ => MonitorCallOutcome.thrown "network error")
      ["Acme Corp"] ["funding"] (by decide) (by decide)
  exact ⟨resp, h1, by simpa using h2, by simpa using h3, h4, h5⟩

/-- C8 counterexample: in a two-prospect batch whose first monitor call
throws (a deterministic failure) while the second resolves, the event trace
shows the second prospect's monitor call immediately after the first
prospect's, with no pause between them — the setTimeout sits inside the try
block after the push, so the thrown call skips it.  The claim requires a
fixed 1-second pause after the failed first prospect before continuing to
the next one, so it fails at this input. -/
theorem monitorBatch_pause_counterexample :
    (monitorLoop
        (fun p => if p = "A" then MonitorCallOutcome.thrown "network error"
          else MonitorCallOutcome.resolved
            (BatchEntry.ok p []
              (Json.obj [("company", Json.str p), ("hasNews", Json.bool false)])))
        ["A", "B"]).2
      = [BatchEvent.monitorCall "A", BatchEvent.monitorCall "B", BatchEvent.sleep 1000] ∧
    ((monitorLoop
        (fun p => if p = "A" then MonitorCallOutcome.thrown "network error"
          else MonitorCallOutcome.resolved
            (BatchEntry.ok p []
              (Json.obj [("company", Json.str p), ("hasNews", Json.bool false)])))
        ["A", "B"]).2).take 2
      = [BatchEvent.monitorCall "A", BatchEvent.monitorCall "B"] := by
  constructor
  · simp [monitorLoop]
  · simp [monitorLoop]

/-- C8 (amended): in every batch run the fixed 1000 ms pause follows
exactly each prospect whose monitor call resolves — whether to a success or
an error envelope; a prospect whose call throws is recorded as a failure
and gets no pause. -/
theorem monitorBatch_pause_after_resolved
    (call : String → MonitorCallOutcome) (prospects : List String) :
    (monitorLoop call prospects).2
      = prospects.flatMap (fun p =>
          match call p with
          | .resolved _ => [BatchEvent.monitorCall p, BatchEvent.sleep 1000]
          | .thrown _ => [BatchEvent.monitorCall p]) := by
  induction prospects with
  | nil => rfl
  | cons p rest ih => cases h : call p <;> simp [monitorLoop, h, ih]

/-- One pass of the tagged-fence stripping removes a leading tagged fence
with its newline. -/
theorem stripJsonFence_header (l : List Char) :
    stripJsonFence ('\x60' :: '\x60' :: '\x60' :: 'j' :: 's' :: 'o' :: 'n' :: '\n' :: l)
      = stripJsonFence l := by
  rw [stripJsonFence]
  simp [jsonFenceChars]

/-- The closing-fence suffix alone is untouched by the tagged-fence
stripping. -/
theorem stripJsonFence_base :
    stripJsonFence ['\n', '\x60', '\x60', '\x60'] = ['\n', '\x60', '\x60', '\x60'] := by
  simp [stripJsonFence, jsonFenceChars]

/-- The tagged-fence stripping leaves a fence-free body followed by the
closing fence unchanged. -/
theorem stripJsonFence_keeps (s : List Char) (hs : containsTicks s = false) :
    stripJsonFence (s ++ ['\n', '\x60', '\x60', '\x60'])
      = s ++ ['\n', '\x60', '\x60', '\x60'] := by
  induction s with
  | nil =>
      simpa using stripJsonFence_base
  | cons c s' ih =>
      rw [containsTicks, Bool.or_eq_false_iff] at hs
      obtain ⟨h1, h2⟩ := hs
      rw [decide_eq_false_iff_not] at h1
      have hcond :
          ¬ ((c :: (s' ++ ['\n', '\x60', '\x60', '\x60'])).take 7 = jsonFenceChars) := by
        intro hc
        match s' with
        | [] => simp [jsonFenceChars] at hc
        | [a] => simp [jsonFenceChars] at hc
        | a :: b :: s'' =>
          simp only [List.cons_append, List.take_succ_cons, jsonFenceChars,
            List.cons.injEq] at hc
          exact h1 (by simp [tickChars, hc.1, hc.2.1, hc.2.2.1])
      rw [List.cons_append, stripJsonFence]
      rw [if_neg (by simpa using hcond)]
      rw [ih h2]

/-- The bare-fence stripping turns a fence-free body followed by the
closing fence into the body and its separating newline. -/
theorem stripBareFence_tail (s : List Char) (hs : containsTicks s = false) :
    stripBareFence (s ++ ['\n', '\x60', '\x60', '\x60']) = s ++ ['\n'] := by
  induction s with
  | nil =>
      show stripBareFence ['\n', '\x60', '\x60', '\x60'] = ['\n']
      simp [stripBareFence, tickChars]
  | cons c s' ih =>
      rw [containsTicks, Bool.or_eq_false_iff] at hs
      obtain ⟨h1, h2⟩ := hs
      rw [decide_eq_false_iff_not] at h1
      have hcond :
          ¬ ((c :: (s' ++ ['\n', '\x60', '\x60', '\x60'])).take 3 = tickChars) := by
        intro hc
        match s' with
        | [] => simp [tickChars] at hc
        | [a] => simp [tickChars] at hc
        | a :: b :: s'' =>
          simp only [List.cons_append, List.take_succ_cons, tickChars,
            List.cons.injEq] at hc
          exact h1 (by simp [tickChars, hc.1, hc.2.1, hc.2.2.1])
      rw [List.cons_append, stripBareFence]
      rw [if_neg (by simpa using hcond)]
      rw [ih h2]
      rfl

/-- Trimming absorbs a trailing newline. -/
theorem trimChars_newline (s : List Char) :
    trimChars (s ++ ['\n']) = trimChars s := by
  simp [trimChars, List.dropWhile_cons, isJsSpace]

/-- A fence-wrapped response text cleans up to its trimmed body. -/
theorem cleanResponseText_fenced (s : String) (hs : containsTicks s.data = false) :
    cleanResponseText ("\x60\x60\x60json\n" ++ s ++ "\n\x60\x60\x60")
      = String.mk (trimChars s.data) := by
  unfold cleanResponseText
  have hdata : ("\x60\x60\x60json\n" ++ s ++ "\n\x60\x60\x60").data
      = '\x60' :: '\x60' :: '\x60' :: 'j' :: 's' :: 'o' :: 'n' :: '\n'
          :: (s.data ++ ['\n', '\x60', '\x60', '\x60']) := rfl
  rw [hdata, stripJsonFence_header, stripJsonFence_keeps s.data hs,
      stripBareFence_tail s.data hs, trimChars_newline]

/-- C5: for every response text that is a valid, validation-passing JSON
object (itself free of fence markers) wrapped in a leading tagged fence and
a trailing closing fence, analyze strips the markers before parsing and
returns the decoded verdict, not the fallback. -/
theorem analyze_fenced_json_decoded
    (parseJson : String → Option Json) (p : String) (ks : List String)
    (rs : List SearchResult) (s : String) (j : Json)
    (hp : p ≠ "")
    (hs : containsTicks s.data = false)
    (hparse : parseJson (String.mk (trimChars s.data)) = some j)
    (hvalid : validAnalysisStructure j = true) :
    analyzeHandler parseJson true (some p) (some ks) (some rs)
        (.ok ("\x60\x60\x60json\n" ++ s ++ "\n\x60\x60\x60")) = .ok j := by
  have hclean := cleanResponseText_fenced s hs
  simp [analyzeHandler, hp, hclean, hparse, hvalid]

/-- Witness for C5 at a concrete fenced response. -/
theorem analyze_fenced_json_decoded_witness :
    analyzeHandler
        (fun _ =>
          some (Json.obj [("company", Json.str "Acme Corp"), ("hasNews", Json.bool true)]))
        true (some "Acme Corp") (some ["funding"]) (some [])
        (.ok ("\x60\x60\x60json\n" ++ "x" ++ "\n\x60\x60\x60"))
      = .ok (Json.obj [("company", Json.str "Acme Corp"), ("hasNews", Json.bool true)]) :=
  analyze_fenced_json_decoded _ "Acme Corp" ["funding"] [] "x" _
    (by decide) (by decide) rfl (by decide)
